import Mathlib

/-!
Verification of the stock-dashboard repository against its natural-language
specification.  The Python modules `theses_manager.py`,
`earnings_cache_manager.py`, `sankey_cache_manager.py`, `agent.py`
(`infer_sankey_structure`) and `utils.py` (`get_sankey_data`) are shallowly
embedded below: JSON files become explicit values, dicts become association
lists, and the stateful read-modify-write pattern of each manager becomes a
pure function from the loaded state to the written state.
-/

namespace StockDash

/-! ## Theses manager (`theses_manager.py`)

A thesis record mirrors the dict produced by `get_empty_thesis_template`
plus the timestamp fields that `save_thesis` adds.  The `id` field uses the
empty string for "no id", exactly the Python truthiness test
`"id" not in thesis_data or not thesis_data["id"]`. -/

structure Thesis where
  id : String
  ticker : String
  thesis_statement : String
  falsification_condition : String
  confidence : Int
  time_horizon : String
  status : String
  created_at : Option String
  updated_at : Option String
  deriving DecidableEq, Repr

/-- Python `str.strip()`: drop whitespace from both ends. -/
def pyStrip (s : String) : String :=
  ⟨((s.data.dropWhile (fun c => c.isWhitespace)).reverse.dropWhile
      (fun c => c.isWhitespace)).reverse⟩

/-- The content-based duplicate test of `save_thesis`:
`t['ticker'] == thesis_data['ticker'] and
 t['thesis_statement'].strip() == thesis_data['thesis_statement'].strip()`. -/
def matchesThesis (d t : Thesis) : Bool :=
  t.ticker == d.ticker && pyStrip t.thesis_statement == pyStrip d.thesis_statement

/-- The first loop of `save_thesis` (the `"id" not in thesis_data` branch):
walk the stored list, replace the first content duplicate in place keeping
its id and stamping `updated_at`; if none matches, append the record with a
fresh id and `created_at`.  Returns the id reported to the caller together
with the new list. -/
def dedupInsert (d : Thesis) (now newId : String) : List Thesis → String × List Thesis
  | [] => (newId, [{ d with id := newId, created_at := some now }])
  | t :: ts =>
    if matchesThesis d t then
      (t.id, { d with id := t.id, updated_at := some now } :: ts)
    else
      let r := dedupInsert d now newId ts
      (r.1, t :: r.2)

/-- The second loop of `save_thesis` (the explicit-id branch): replace the
first record with the same id; the Boolean records whether it was found. -/
def updateById (d : Thesis) : List Thesis → Bool × List Thesis
  | [] => (false, [])
  | t :: ts =>
    if t.id = d.id then (true, d :: ts)
    else
      let r := updateById d ts
      (r.1, t :: r.2)

/-- `save_thesis(thesis_data)`.  `loaded` is the result of `load_theses()`
(`none` models the `None` return on a non-JSON-decode load error), `now` the
current timestamp string and `newId` the generated UUID.  The result is the
`(ok, id_or_message)` pair returned to the caller together with the content
written to `theses.json` (`none` when the file is not written).

Note the source first runs `if theses is None: theses = []`, so the later
guard `if theses is None: return False, "Failed to load existing theses
(File Access Error)."` can never fire; the embedding reproduces that
behaviour. -/
def saveThesis (now newId : String) (d : Thesis) (loaded : Option (List Thesis)) :
    (Bool × String) × Option (List Thesis) :=
  let theses := match loaded with
    | none => []
    | some ts => ts
  if d.id = "" then
    let r := dedupInsert d now newId theses
    ((true, r.1), some r.2)
  else
    let d' := { d with updated_at := some now }
    let r := updateById d' theses
    let theses' := if r.1 then r.2 else r.2 ++ [d']
    ((true, d'.id), some theses')

/-- `delete_thesis(thesis_id)`.  `loaded` is the result of `load_theses()`;
the result pairs the returned Boolean with the content written to the file
(`none` when the file is not written). -/
def deleteThesis (tid : String) (loaded : Option (List Thesis)) :
    Bool × Option (List Thesis) :=
  match loaded with
  | none => (false, none)
  | some theses =>
    let theses' := theses.filter (fun t => t.id ≠ tid)
    if theses'.length = theses.length then (false, none)
    else (true, some theses')

/-! Concrete records used in closed instantiations. -/

def thesisA : Thesis :=
  { id := "id-a", ticker := "AAPL", thesis_statement := "Services growth",
    falsification_condition := "Services decline", confidence := 7,
    time_horizon := "3-6 Months", status := "Active",
    created_at := some "2026-01-01 09:00:00", updated_at := none }

def thesisB : Thesis :=
  { thesisA with
      id := "id-b"
      thesis_statement := " Services growth "
      created_at := some "2026-01-02 09:00:00" }

def thesisDraft : Thesis :=
  { id := "", ticker := "AAPL", thesis_statement := "Services growth",
    falsification_condition := "Services decline", confidence := 8,
    time_horizon := "6-12 Months", status := "Active",
    created_at := none, updated_at := none }

/-! ## JSON values

A small JSON universe for the payloads the managers store and for the
parsed LLM responses of `infer_sankey_structure`.  Numbers are rationals. -/

inductive Json where
  | null : Json
  | bool (b : Bool) : Json
  | num (q : ℚ) : Json
  | str (s : String) : Json
  | arr (xs : List Json) : Json
  | obj (fields : List (String × Json)) : Json

/-! ## Dict primitives shared by both cache managers

Python dicts keyed by strings are association lists; `dictSet` is
`cache[k] = v` (replace the existing binding or append a new one, keeping
the other keys), `dictGet` is `cache.get(k)` and `dictDel` is `del cache[k]`. -/

/-- Python `str.upper()` for the ASCII ticker symbols both managers key
on. -/
def pyUpper (s : String) : String := ⟨s.data.map Char.toUpper⟩

def dictGet : List (String × α) → String → Option α
  | [], _ => none
  | (k', v') :: rest, k => if k' = k then some v' else dictGet rest k

def dictSet (k : String) (v : α) : List (String × α) → List (String × α)
  | [] => [(k, v)]
  | (k', v') :: rest =>
    if k' = k then (k, v) :: rest else (k', v') :: dictSet k v rest

def dictDel (k : String) : List (String × α) → List (String × α)
  | [] => []
  | (k', v') :: rest =>
    if k' = k then rest else (k', v') :: dictDel k rest

/-! ## Earnings cache manager (`earnings_cache_manager.py`)

An entry is the dict written by `save_earnings`: the data payload plus the
ISO cache date and a human-readable timestamp. -/

structure EarningsEntry where
  data : Json
  cached_date : String
  cached_at : String

abbrev EarningsCache := List (String × EarningsEntry)

/-- `get_cached_earnings(ticker)` over the loaded cache; `today` is
`date.today().isoformat()`. -/
def getCachedEarnings (c : EarningsCache) (ticker today : String) : Option Json :=
  match dictGet c (pyUpper ticker) with
  | none => none
  | some entry => if entry.cached_date = today then some entry.data else none

/-- `save_earnings(ticker, data)`: the cache content written back to the
file, stamping the entry with today and the current timestamp. -/
def saveEarnings (ticker : String) (d : Json) (today now : String)
    (c : EarningsCache) : EarningsCache :=
  dictSet (pyUpper ticker) { data := d, cached_date := today, cached_at := now } c

/-! ## Sankey structure cache manager (`sankey_cache_manager.py`) -/

structure SankeyEntry where
  structure' : Json
  cached_at : String

abbrev SankeyCache := List (String × SankeyEntry)

/-- `get_cached_structure(ticker)` over the loaded cache. -/
def getCachedStructure (c : SankeyCache) (ticker : String) : Option Json :=
  match dictGet c (pyUpper ticker) with
  | none => none
  | some entry => some entry.structure'

/-- `save_structure(ticker, structure)`: the cache content written back. -/
def saveStructure (ticker : String) (d : Json) (now : String)
    (c : SankeyCache) : SankeyCache :=
  dictSet (pyUpper ticker) { structure' := d, cached_at := now } c

/-- `invalidate_cache(ticker)` of the Sankey cache manager: the entry is
deleted when present; when absent the function returns without writing, so
the stored state is unchanged. -/
def invalidateStructure (ticker : String) (c : SankeyCache) : SankeyCache :=
  if (dictGet c (pyUpper ticker)).isSome then dictDel (pyUpper ticker) c else c

/-- The write operations of the Sankey cache manager, for reasoning about
arbitrary interleavings over time. -/
inductive SankeyOp where
  | save (ticker : String) (d : Json) (now : String) : SankeyOp
  | inval (ticker : String) : SankeyOp

def applySankeyOp (c : SankeyCache) : SankeyOp → SankeyCache
  | .save t d now => saveStructure t d now c
  | .inval t => invalidateStructure t c

def applySankeyOps (c : SankeyCache) (ops : List SankeyOp) : SankeyCache :=
  ops.foldl applySankeyOp c

/-- An operation addresses the cache key `u` when its uppercased ticker is
`u`. -/
def opTouches (u : String) : SankeyOp → Bool
  | .save t _ _ => (pyUpper t) == u
  | .inval t => (pyUpper t) == u

/-! ## LLM structure inference (`agent.py`, `infer_sankey_structure`)

The network call and prompt are outside the embedding; its input here is
the result of `json.loads(clean_json_text(res))`: `none` when parsing
raised `json.JSONDecodeError` (the only exception the source catches),
otherwise the parsed JSON value. -/

/-- Python membership `key in x` on a parsed JSON value: key lookup for a
dict, element equality for a list, substring test for a string, and a
`TypeError` (modelled as `Except.error`) for the remaining types. -/
def pyIn (key : String) : Json → Except Unit Bool
  | .obj fields => .ok (fields.any (fun f => f.1 == key))
  | .arr xs => .ok (xs.any (fun x => match x with | .str s => s == key | _ => false))
  | .str s => .ok (key = "" || (s.splitOn key).length ≥ 2)
  | _ => .error ()

/-- `infer_sankey_structure(income_stmt_data)`.  `apiKeyOk` is
`check_api_key()`; `resp` the parse result of the model response.  The
source validates only `if 'nodes' in structure and 'links' in structure`
before returning the structure unchanged; `and` short-circuits, so the
second membership test runs only when the first succeeded. -/
def inferSankeyStructure (apiKeyOk : Bool) (resp : Option Json) :
    Except Unit (Option Json) :=
  if !apiKeyOk then .ok none
  else
    match resp with
    | none => .ok none
    | some s =>
      match pyIn "nodes" s with
      | .error e => .error e
      | .ok false => .ok none
      | .ok true =>
        match pyIn "links" s with
        | .error e => .error e
        | .ok b => if b then .ok (some s) else .ok none

/-- Follows the data model stated in the spec, for comparison with what the
source actually validates: a conforming structure is an object with a
`nodes` list of named nodes each carrying a numeric layer index, a `links`
list of directed links each carrying source name, target name and
source-field name, and a `field_mapping` object from display name to raw
row label. -/
def specConformantStructure : Json → Bool
  | .obj fields =>
    (match fields.lookup "nodes" with
     | some (.arr nodes) =>
       nodes.all (fun n =>
         match n with
         | .obj nf =>
           (match nf.lookup "name" with | some (.str _) => true | _ => false) &&
           (match nf.lookup "layer" with | some (.num _) => true | _ => false)
         | _ => false)
     | _ => false) &&
    (match fields.lookup "links" with
     | some (.arr links) =>
       links.all (fun l =>
         match l with
         | .obj lf =>
           (match lf.lookup "source" with | some (.str _) => true | _ => false) &&
           (match lf.lookup "target" with | some (.str _) => true | _ => false) &&
           (match lf.lookup "field" with | some (.str _) => true | _ => false)
         | _ => false)
     | _ => false) &&
    (match fields.lookup "field_mapping" with
     | some (.obj mapping) =>
       mapping.all (fun f => match f.2 with | .str _ => true | _ => false)
     | _ => false)
  | _ => false

/-- A response carrying `nodes` and `links` keys but none of the shape the
data model requires: the source hands it back unrepaired. -/
def malformedStructure : Json :=
  Json.obj [("nodes", Json.num 1), ("links", Json.num 2)]

/-! ## Sankey diagram builder (`utils.py`, `get_sankey_data`)

`utils.py` defines `get_sankey_data` twice; the later definition (line 643)
shadows the earlier one and is the one embedded here.  Statement cells and
segment values are floats in the source; the embedding keeps the one float
behaviour the logic is sensitive to — NaN, which yfinance statement cells
and `json.loads` segment values can both carry — and idealizes finite
values as integers (dollar amounts). -/

/-- A statement cell or segment value: a finite number or NaN. -/
inductive PyFloat where
  | fin (z : ℤ) : PyFloat
  | nan : PyFloat
  deriving DecidableEq

/-- `abs`: NaN propagates. -/
def pyAbs : PyFloat → PyFloat
  | .fin z => .fin |z|
  | .nan => .nan

/-- `a <= b`: any comparison against NaN is `False`. -/
def pyLe : PyFloat → PyFloat → Bool
  | .fin a, .fin b => a ≤ b
  | _, _ => false

/-- `a < b`: any comparison against NaN is `False`. -/
def pyLt : PyFloat → PyFloat → Bool
  | .fin a, .fin b => a < b
  | _, _ => false

/-- `a - b`: NaN propagates. -/
def pySub : PyFloat → PyFloat → PyFloat
  | .fin a, .fin b => .fin (a - b)
  | _, _ => .nan

/-- `a * b`: NaN propagates. -/
def pyMul : PyFloat → PyFloat → PyFloat
  | .fin a, .fin b => .fin (a * b)
  | _, _ => .nan

/-- Two-decimal rendering of `q / divisor`, the `:.2f` format specifier
applied to the scaled quotient (rounding the second decimal);
`f"{nan:.2f}"` is `"nan"`. -/
def fmtScaled (q : PyFloat) (divisor : ℤ) : String :=
  match q with
  | .nan => "nan"
  | .fin z =>
    let c : ℤ := (200 * z + divisor) / (2 * divisor)
    let frac := (c % 100).natAbs
    toString (c / 100) ++ "." ++ (if frac < 10 then "0" else "") ++ toString frac

/-- `format_large_number(num)` for a numeric argument.  `not nan` is
`False` and every threshold comparison against NaN is `False`, so a NaN
falls through to the final `f"${num:.2f}"` branch and renders as
`"$nan"`. -/
def formatLargeNumber (q : PyFloat) : String :=
  if q = .fin 0 then "0"
  else if pyLe (.fin (10 ^ 12)) q then "$" ++ fmtScaled q (10 ^ 12) ++ "T"
  else if pyLe (.fin (10 ^ 9)) q then "$" ++ fmtScaled q (10 ^ 9) ++ "B"
  else if pyLe (.fin (10 ^ 6)) q then "$" ++ fmtScaled q (10 ^ 6) ++ "M"
  else if pyLe (.fin (10 ^ 3)) q then "$" ++ fmtScaled q (10 ^ 3) ++ "K"
  else "$" ++ fmtScaled q 1

/-- The mutable lists that `get_sankey_data` builds up through its
`get_idx` and `add_link` helpers. -/
structure SankeyState where
  labels : List String
  nodeColors : List String
  source : List Nat
  target : List Nat
  value : List PyFloat
  linkColors : List String
  customData : List String

def emptySankeyState : SankeyState :=
  { labels := [], nodeColors := [], source := [], target := [],
    value := [], linkColors := [], customData := [] }

/-- `labels.index(name)`: position of the first occurrence. -/
def pyIndex (name : String) : List String → Nat
  | [] => 0
  | x :: xs => if x = name then 0 else pyIndex name xs + 1

/-- `get_idx(name, color)`: append the name (and its node color) when it is
not yet a label, then return its index. -/
def getIdx (name color : String) (s : SankeyState) : Nat × SankeyState :=
  if name ∈ s.labels then (pyIndex name s.labels, s)
  else (s.labels.length,
    { s with labels := s.labels ++ [name], nodeColors := s.nodeColors ++ [color] })

/-- `add_link(src_name, src_color, tgt_name, tgt_color, val, link_color)`:
drop the link when `val <= 0`, otherwise resolve both node indices and
append one entry to each of the five link lists.  The guard does not fire
for NaN (`nan <= 0` is `False`), so a NaN value is appended. -/
def addLink (srcName srcColor tgtName tgtColor : String) (val : PyFloat)
    (linkColor : Option String) (s : SankeyState) : SankeyState :=
  if pyLe val (.fin 0) then s
  else
    let r₁ := getIdx srcName srcColor s
    let r₂ := getIdx tgtName tgtColor r₁.2
    { r₂.2 with
        source := r₂.2.source ++ [r₁.1]
        target := r₂.2.target ++ [r₂.1]
        value := r₂.2.value ++ [val]
        linkColors := r₂.2.linkColors ++ [linkColor.getD "rgba(180, 180, 180, 0.5)"]
        customData := r₂.2.customData ++ [formatLargeNumber val] }

/-- One element of the parsed `segments_json` array.  A `none` field models
a missing key: reading it in the loop body raises `KeyError`, which aborts
the surrounding `try` block while keeping the links already added. -/
structure Segment where
  label : Option String
  value : Option PyFloat

/-- `float(x.get('value', 0))`, the sort key. -/
def segKey (s : Segment) : PyFloat := s.value.getD (.fin 0)

/-- Stable descending insertion by `segKey`, the semantics of
`sorted(segs, key=..., reverse=True)` (comparisons against a NaN key are
all `False`; CPython's placement of such keys depends on the merge order,
and this insertion order is one consistent reading of it). -/
def insertSegDesc (s : Segment) : List Segment → List Segment
  | [] => [s]
  | t :: ts =>
    if pyLt (segKey s) (segKey t) then t :: insertSegDesc s ts else s :: t :: ts

def sortSegsDesc : List Segment → List Segment
  | [] => []
  | s :: rest => insertSegDesc s (sortSegsDesc rest)

/-- The `for s in sorted_segs` loop: each well-formed segment contributes a
`Segment -> Total Revenue` link with its value scaled to billions; a
segment with a missing field stops the loop. -/
def addSegmentLinks : List Segment → SankeyState → SankeyState
  | [], st => st
  | s :: rest, st =>
    match s.value, s.label with
    | some v, some lbl =>
      addSegmentLinks rest
        (addLink lbl "#5DADE2" "Total Revenue" "#2E86C1" (pyMul v (.fin (10 ^ 9)))
          (some "rgba(93, 173, 226, 0.3)") st)
    | _, _ => st

/-- The whole segment block.  `segs = none` models `json.loads` failing (or
the sort key raising on a non-castable value), in which case the block
contributes nothing; the `if segs:` test skips an empty parse result. -/
def processSegments (segs : Option (List Segment)) (st : SankeyState) : SankeyState :=
  match segs with
  | none => st
  | some l => if l.isEmpty then st else addSegmentLinks (sortSegsDesc l) st

/-- The most recent column of the quarterly income statement: the column
label (a parsed year/month when `pd.to_datetime` succeeds, else the raw
string) and the row values keyed by row label, `recent.get(name, 0)`
defaulting to 0. -/
structure IncomeStmt where
  colDate : Option (Nat × Nat)
  colRaw : String
  recent : List (String × PyFloat)

/-- `financials.get('income_stmt', pd.DataFrame())`: `none` models a
missing or empty DataFrame, which makes `get_sankey_data` return `None`. -/
structure Financials where
  income_stmt : Option IncomeStmt

def rowGet (r : List (String × PyFloat)) (k : String) : PyFloat :=
  (dictGet r k).getD (.fin 0)

/-- The `24Q3`-style period label, falling back to the first
space-separated word of the raw column label. -/
def periodLabel (inc : IncomeStmt) : String :=
  match inc.colDate with
  | some (y, m) => toString (y % 100) ++ "Q" ++ toString ((m - 1) / 3 + 1)
  | none => (inc.colRaw.splitOn " ").headD inc.colRaw

structure SankeyResult where
  period : String
  label : List String
  color : List String
  source : List Nat
  target : List Nat
  value : List PyFloat
  link_color : List String
  custom_data : List String
  deriving DecidableEq

/-- The body of `get_sankey_data` from the segment block onward: the final
state of the five link lists and the node lists. -/
def buildSankeyState (recent : List (String × PyFloat))
    (segs : Option (List Segment)) : SankeyState :=
  let _total_rev := pyAbs (rowGet recent "Total Revenue")
  let cogs := pyAbs (rowGet recent "Cost Of Revenue")
  let gross_profit := pyAbs (rowGet recent "Gross Profit")
  let op_expense := pyAbs (rowGet recent "Operating Expense")
  let rd := pyAbs (rowGet recent "Research And Development")
  let sga := pyAbs (rowGet recent "Selling General And Administration")
  let op_income := pyAbs (rowGet recent "Operating Income")
  let tax := pyAbs (rowGet recent "Tax Provision")
  let net_income := pyAbs (rowGet recent "Net Income")
  let st := processSegments segs emptySankeyState
  let st := addLink "Total Revenue" "#2E86C1" "Cost of Revenue" "#E74C3C" cogs
    (some "rgba(231, 76, 60, 0.3)") st
  let st := addLink "Total Revenue" "#2E86C1" "Gross Profit" "#28B463" gross_profit
    (some "rgba(40, 180, 99, 0.3)") st
  let st := if pyLt (.fin 0) rd then
      addLink "Gross Profit" "#28B463" "R&D" "#F39C12" rd
        (some "rgba(243, 156, 18, 0.3)") st
    else st
  let st := if pyLt (.fin 0) sga then
      addLink "Gross Profit" "#28B463" "SG&A" "#F39C12" sga
        (some "rgba(243, 156, 18, 0.3)") st
    else st
  let remaining_opex := pySub (pySub op_expense rd) sga
  let st := if pyLt (.fin 0) remaining_opex then
      addLink "Gross Profit" "#28B463" "Other OpEx" "#F39C12" remaining_opex
        (some "rgba(243, 156, 18, 0.3)") st
    else st
  let st := addLink "Gross Profit" "#28B463" "Operating Income" "#28B463" op_income
    (some "rgba(40, 180, 99, 0.3)") st
  let st := addLink "Operating Income" "#28B463" "Tax" "#E74C3C" tax
    (some "rgba(231, 76, 60, 0.3)") st
  let st := addLink "Operating Income" "#28B463" "Net Income" "#1E8449" net_income
    (some "rgba(30, 132, 73, 0.5)") st
  st

/-- `get_sankey_data(ticker_symbol, financials, segments_json)`, the
definition at line 643 of `utils.py` (the later of the two definitions of
that name, which shadows the one at line 104).  The ticker symbol is unused
by the source body and therefore not a parameter here. -/
def getSankeyData (fin : Financials) (segs : Option (List Segment)) :
    Option SankeyResult :=
  match fin.income_stmt with
  | none => none
  | some inc =>
    let st := buildSankeyState inc.recent segs
    some { period := periodLabel inc, label := st.labels, color := st.nodeColors,
           source := st.source, target := st.target, value := st.value,
           link_color := st.linkColors, custom_data := st.customData }

/-! ## Invariant predicates over the Sankey state -/

/-- The strict positivity the claim asserts of an emitted flow: a finite
positive number.  NaN is not strictly positive (`nan > 0` is `False`). -/
def strictlyPos : PyFloat → Bool
  | .fin z => decide (0 < z)
  | .nan => false

/-- What actually holds of every recorded flow value: it passed the
`val <= 0` guard, so it is a finite positive number or NaN. -/
def ValuePos (s : SankeyState) : Prop :=
  ∀ v ∈ s.value, v = PyFloat.nan ∨ strictlyPos v = true

/-- The five link lists stay in lockstep and every recorded node index is
a valid position of the label list. -/
def WfState (s : SankeyState) : Prop :=
  s.source.length = s.value.length ∧
  s.target.length = s.value.length ∧
  s.linkColors.length = s.value.length ∧
  s.customData.length = s.value.length ∧
  (∀ i ∈ s.source, i < s.labels.length) ∧
  (∀ i ∈ s.target, i < s.labels.length)

/-- Every node label satisfies `P`. -/
def LabelsFrom (P : String → Prop) (s : SankeyState) : Prop := ∀ l ∈ s.labels, P l

/-- The node names of the hard-coded income-statement topology. -/
def fixedSankeyNames : List String :=
  ["Total Revenue", "Cost of Revenue", "Gross Profit", "R&D", "SG&A",
   "Other OpEx", "Operating Income", "Tax", "Net Income"]

/-! ## Concrete inputs for closed instantiations -/

/-- A quarter with every major line item present and positive, with
`Operating Expense` exceeding the sum of the two itemized expenses. -/
def demoRecent : List (String × PyFloat) :=
  [("Total Revenue", .fin 100000000000),
   ("Cost Of Revenue", .fin 40000000000),
   ("Gross Profit", .fin 60000000000),
   ("Operating Expense", .fin 30000000000),
   ("Research And Development", .fin 10000000000),
   ("Selling General And Administration", .fin 15000000000),
   ("Operating Income", .fin 30000000000),
   ("Tax Provision", .fin 5000000000),
   ("Net Income", .fin 25000000000)]

def demoIncome : IncomeStmt :=
  { colDate := some (2024, 9), colRaw := "2024-09-30 00:00:00", recent := demoRecent }

def demoFinancials : Financials := { income_stmt := some demoIncome }

/-- The output of `get_sankey_data` on `demoFinancials` with an empty
segment list, written out in full. -/
def demoSankeyResult : SankeyResult :=
  { period := "24Q3"
    label := fixedSankeyNames
    color := ["#2E86C1", "#E74C3C", "#28B463", "#F39C12", "#F39C12",
              "#F39C12", "#28B463", "#E74C3C", "#1E8449"]
    source := [0, 0, 2, 2, 2, 2, 6, 6]
    target := [1, 2, 3, 4, 5, 6, 7, 8]
    value := [.fin 40000000000, .fin 60000000000, .fin 10000000000,
              .fin 15000000000, .fin 5000000000, .fin 30000000000,
              .fin 5000000000, .fin 25000000000]
    link_color := ["rgba(231, 76, 60, 0.3)", "rgba(40, 180, 99, 0.3)",
                   "rgba(243, 156, 18, 0.3)", "rgba(243, 156, 18, 0.3)",
                   "rgba(243, 156, 18, 0.3)", "rgba(40, 180, 99, 0.3)",
                   "rgba(231, 76, 60, 0.3)", "rgba(30, 132, 73, 0.5)"]
    custom_data := ["$40.00B", "$60.00B", "$10.00B", "$15.00B",
                    "$5.00B", "$30.00B", "$5.00B", "$25.00B"] }

/-- The demo quarter with its `Cost Of Revenue` cell NaN, as yfinance
statement cells routinely are. -/
def nanRecent : List (String × PyFloat) :=
  [("Total Revenue", .fin 100000000000),
   ("Cost Of Revenue", .nan),
   ("Gross Profit", .fin 60000000000),
   ("Operating Expense", .fin 30000000000),
   ("Research And Development", .fin 10000000000),
   ("Selling General And Administration", .fin 15000000000),
   ("Operating Income", .fin 30000000000),
   ("Tax Provision", .fin 5000000000),
   ("Net Income", .fin 25000000000)]

def nanFinancials : Financials :=
  { income_stmt := some
      { colDate := some (2024, 9), colRaw := "2024-09-30 00:00:00",
        recent := nanRecent } }

/-- The output on `nanFinancials`: `abs(nan)` is NaN, the `val <= 0` guard
does not fire, and the Cost of Revenue flow is emitted with a NaN value
and a `"$nan"` tooltip. -/
def nanSankeyResult : SankeyResult :=
  { demoSankeyResult with
      value := [.nan, .fin 60000000000, .fin 10000000000,
                .fin 15000000000, .fin 5000000000, .fin 30000000000,
                .fin 5000000000, .fin 25000000000]
      custom_data := ["$nan", "$60.00B", "$10.00B", "$15.00B",
                      "$5.00B", "$30.00B", "$5.00B", "$25.00B"] }

/-- The node names of a cached Sankey structure (the `name` field of each
entry of its `nodes` list). -/
def sankeyNodeNames : Json → List String
  | .obj fields =>
    (match fields.lookup "nodes" with
     | some (.arr nodes) =>
       nodes.filterMap (fun n =>
         match n with
         | .obj nf =>
           (match nf.lookup "name" with
            | some (.str s) => some s
            | _ => none)
         | _ => none)
     | _ => [])
  | _ => []

/-- Follows the claim wording, for comparison with the source: under a
cache-first derivation, a call that finds a cached structure for the
ticker derives the flow graph from it, so the node labels it returns are
the named nodes of that cached structure. -/
def specClaimedSankeyLabels (c : SankeyCache) (ticker : String) :
    Option (List String) :=
  (getCachedStructure c ticker).map sankeyNodeNames

/-- A well-formed cached structure whose node names share nothing with the
hard-coded topology. -/
def demoCachedStructure : Json :=
  Json.obj
    [("nodes", Json.arr
        [Json.obj [("name", Json.str "Alpha"), ("layer", Json.num 0)],
         Json.obj [("name", Json.str "Beta"), ("layer", Json.num 1)]]),
     ("links", Json.arr
        [Json.obj [("source", Json.str "Alpha"), ("target", Json.str "Beta"),
                   ("field", Json.str "Total Revenue")]]),
     ("field_mapping", Json.obj [("Alpha", Json.str "Total Revenue")])]

def demoSankeyCache : SankeyCache :=
  [("AAPL", { structure' := demoCachedStructure,
              cached_at := "2026-01-01 00:00:00" })]

/-! ## Invariants of the Sankey state -/

theorem dictGet_dictSet_self (c : List (String × α)) (k : String) (v : α) :
    dictGet (dictSet k v c) k = some v := by
  induction c with
  | nil => simp [dictGet, dictSet]
  | cons hd tl ih =>
    obtain ⟨k', v'⟩ := hd
    by_cases h : k' = k
    · simp [dictGet, dictSet, h]
    · simpa [dictGet, dictSet, h] using ih

theorem dictGet_dictSet_ne (c : List (String × α)) {k k' : String} (v : α)
    (h : k ≠ k') : dictGet (dictSet k v c) k' = dictGet c k' := by
  induction c with
  | nil => simp [dictGet, dictSet, h]
  | cons hd tl ih =>
    obtain ⟨k₀, v₀⟩ := hd
    by_cases h₀ : k₀ = k
    · subst h₀
      simp [dictGet, dictSet, h]
    · simp only [dictSet, if_neg h₀, dictGet]
      split <;> simp [ih]

theorem dictGet_dictDel_ne (c : List (String × α)) {k k' : String}
    (h : k ≠ k') : dictGet (dictDel k c) k' = dictGet c k' := by
  induction c with
  | nil => simp [dictDel]
  | cons hd tl ih =>
    obtain ⟨k₀, v₀⟩ := hd
    by_cases h₀ : k₀ = k
    · subst h₀
      simp [dictGet, dictDel, h]
    · simp only [dictDel, if_neg h₀, dictGet]
      split <;> simp [ih]

theorem pyIndex_lt_length {n : String} {l : List String} (h : n ∈ l) :
    pyIndex n l < l.length := by
  induction l with
  | nil => cases h
  | cons x xs ih =>
    by_cases hx : x = n
    · simp [pyIndex, hx]
    · have hmem : n ∈ xs := by
        cases h with
        | head => exact absurd rfl hx
        | tail _ h' => exact h'
      simp only [pyIndex, if_neg hx, List.length_cons]
      exact Nat.succ_lt_succ (ih hmem)

theorem getIdx_labels (n c : String) (s : SankeyState) :
    (getIdx n c s).2.labels = s.labels ∨ (getIdx n c s).2.labels = s.labels ++ [n] := by
  unfold getIdx
  split <;> simp

theorem getIdx_labels_length_le (n c : String) (s : SankeyState) :
    s.labels.length ≤ (getIdx n c s).2.labels.length := by
  rcases getIdx_labels n c s with h | h <;> simp [h]

theorem getIdx_fst_lt (n c : String) (s : SankeyState) :
    (getIdx n c s).1 < (getIdx n c s).2.labels.length := by
  unfold getIdx
  split
  · simpa using pyIndex_lt_length (by assumption)
  · simp

@[simp] theorem getIdx_source (n c : String) (s : SankeyState) :
    (getIdx n c s).2.source = s.source := by
  unfold getIdx; split <;> rfl

@[simp] theorem getIdx_target (n c : String) (s : SankeyState) :
    (getIdx n c s).2.target = s.target := by
  unfold getIdx; split <;> rfl

@[simp] theorem getIdx_value (n c : String) (s : SankeyState) :
    (getIdx n c s).2.value = s.value := by
  unfold getIdx; split <;> rfl

@[simp] theorem getIdx_linkColors (n c : String) (s : SankeyState) :
    (getIdx n c s).2.linkColors = s.linkColors := by
  unfold getIdx; split <;> rfl

@[simp] theorem getIdx_customData (n c : String) (s : SankeyState) :
    (getIdx n c s).2.customData = s.customData := by
  unfold getIdx; split <;> rfl

theorem valuePos_addLink {s : SankeyState} (h : ValuePos s)
    (a b c d : String) (val : PyFloat) (lc : Option String) :
    ValuePos (addLink a b c d val lc s) := by
  unfold addLink
  split
  · exact h
  · next hguard =>
    intro v hv
    simp only [getIdx_value] at hv
    rcases List.mem_append.mp hv with hv | hv
    · exact h v hv
    · have hveq : v = val := by simpa using hv
      rw [hveq]
      cases val with
      | nan => exact Or.inl rfl
      | fin z =>
        refine Or.inr ?_
        simp only [pyLe, decide_eq_true_eq] at hguard
        simp only [strictlyPos, decide_eq_true_eq]
        omega

theorem valuePos_ite {p : Prop} [Decidable p] {s t : SankeyState}
    (h : ValuePos t) (hs : ValuePos s) :
    ValuePos (if p then t else s) := by
  split <;> assumption

theorem valuePos_addSegmentLinks {s : SankeyState} (h : ValuePos s) :
    ∀ l : List Segment, ValuePos (addSegmentLinks l s) := by
  intro l
  induction l generalizing s with
  | nil => exact h
  | cons sg rest ih =>
    unfold addSegmentLinks
    match hv : sg.value, hl : sg.label with
    | some v, some lbl => exact ih (valuePos_addLink h _ _ _ _ _ _)
    | some v, none => exact h
    | none, _ => exact h

theorem valuePos_processSegments {s : SankeyState} (h : ValuePos s)
    (segs : Option (List Segment)) : ValuePos (processSegments segs s) := by
  unfold processSegments
  cases segs with
  | none => exact h
  | some l =>
    by_cases he : l.isEmpty = true
    · simpa [he] using h
    · simpa [he] using valuePos_addSegmentLinks h (sortSegsDesc l)

theorem valuePos_empty : ValuePos emptySankeyState := by
  intro v hv
  simp [emptySankeyState] at hv

theorem valuePos_buildSankeyState (recent : List (String × PyFloat))
    (segs : Option (List Segment)) : ValuePos (buildSankeyState recent segs) := by
  unfold buildSankeyState
  repeat
    first
    | exact valuePos_empty
    | apply valuePos_addLink
    | apply valuePos_ite
    | apply valuePos_processSegments

theorem wf_addLink {s : SankeyState} (h : WfState s)
    (a b c d : String) (val : PyFloat) (lc : Option String) :
    WfState (addLink a b c d val lc s) := by
  unfold addLink
  split
  · exact h
  · obtain ⟨h1, h2, h3, h4, h5, h6⟩ := h
    have hm1 := getIdx_labels_length_le a b s
    have hm2 := getIdx_labels_length_le c d (getIdx a b s).2
    refine ⟨?_, ?_, ?_, ?_, ?_, ?_⟩
    · simp [h1]
    · simp [h2]
    · simp [h3]
    · simp [h4]
    · intro i hi
      simp only [getIdx_source] at hi
      rcases List.mem_append.mp hi with hi | hi
      · exact lt_of_lt_of_le (h5 i hi) (le_trans hm1 hm2)
      · have : i = (getIdx a b s).1 := by simpa using hi
        subst this
        exact lt_of_lt_of_le (getIdx_fst_lt a b s) hm2
    · intro i hi
      simp only [getIdx_target] at hi
      rcases List.mem_append.mp hi with hi | hi
      · exact lt_of_lt_of_le (h6 i hi) (le_trans hm1 hm2)
      · have : i = (getIdx c d (getIdx a b s).2).1 := by simpa using hi
        subst this
        exact getIdx_fst_lt c d (getIdx a b s).2

theorem wf_ite {p : Prop} [Decidable p] {s t : SankeyState}
    (h : WfState t) (hs : WfState s) : WfState (if p then t else s) := by
  split <;> assumption

theorem wf_addSegmentLinks {s : SankeyState} (h : WfState s) :
    ∀ l : List Segment, WfState (addSegmentLinks l s) := by
  intro l
  induction l generalizing s with
  | nil => exact h
  | cons sg rest ih =>
    unfold addSegmentLinks
    match hv : sg.value, hl : sg.label with
    | some v, some lbl => exact ih (wf_addLink h _ _ _ _ _ _)
    | some v, none => exact h
    | none, _ => exact h

theorem wf_processSegments {s : SankeyState} (h : WfState s)
    (segs : Option (List Segment)) : WfState (processSegments segs s) := by
  unfold processSegments
  cases segs with
  | none => exact h
  | some l =>
    by_cases he : l.isEmpty = true
    · simpa [he] using h
    · simpa [he] using wf_addSegmentLinks h (sortSegsDesc l)

theorem wf_empty : WfState emptySankeyState := by
  refine ⟨rfl, rfl, rfl, rfl, ?_, ?_⟩ <;> simp [emptySankeyState]

theorem wf_buildSankeyState (recent : List (String × PyFloat))
    (segs : Option (List Segment)) : WfState (buildSankeyState recent segs) := by
  unfold buildSankeyState
  repeat
    first
    | exact wf_empty
    | apply wf_addLink
    | apply wf_ite
    | apply wf_processSegments

/-! ### Provenance of node labels -/

theorem labelsFrom_addLink {P : String → Prop} {s : SankeyState}
    (h : LabelsFrom P s) {a c : String} (ha : P a) (hc : P c)
    (b d : String) (val : PyFloat) (lc : Option String) :
    LabelsFrom P (addLink a b c d val lc s) := by
  unfold addLink
  split
  · exact h
  · intro l hl
    have hmid : ∀ l ∈ (getIdx a b s).2.labels, P l := by
      intro l' hl'
      rcases getIdx_labels a b s with hg | hg
      · exact h l' (hg ▸ hl')
      · rw [hg] at hl'
        rcases List.mem_append.mp hl' with hm | hm
        · exact h l' hm
        · have : l' = a := by simpa using hm
          exact this ▸ ha
    have hl' : l ∈ (getIdx c d (getIdx a b s).2).2.labels := hl
    rcases getIdx_labels c d (getIdx a b s).2 with hg | hg
    · exact hmid l (hg ▸ hl')
    · rw [hg] at hl'
      rcases List.mem_append.mp hl' with hm | hm
      · exact hmid l hm
      · have : l = c := by simpa using hm
        exact this ▸ hc

theorem labelsFrom_ite {P : String → Prop} {p : Prop} [Decidable p]
    {s t : SankeyState} (h : LabelsFrom P t) (hs : LabelsFrom P s) :
    LabelsFrom P (if p then t else s) := by
  split <;> assumption

theorem mem_insertSegDesc {t s : Segment} {l : List Segment}
    (h : t ∈ insertSegDesc s l) : t = s ∨ t ∈ l := by
  induction l with
  | nil =>
    simp [insertSegDesc] at h
    left
    exact h
  | cons x xs ih =>
    unfold insertSegDesc at h
    split at h
    · rcases List.mem_cons.mp h with h | h
      · right; exact h ▸ List.mem_cons_self x xs
      · rcases ih h with h | h
        · left; exact h
        · right; exact List.mem_cons_of_mem x h
    · rcases List.mem_cons.mp h with h | h
      · left; exact h
      · right; exact h

theorem mem_sortSegsDesc {t : Segment} {l : List Segment}
    (h : t ∈ sortSegsDesc l) : t ∈ l := by
  induction l with
  | nil => simp [sortSegsDesc] at h
  | cons x xs ih =>
    rcases mem_insertSegDesc h with h' | h'
    · exact h' ▸ List.mem_cons_self x xs
    · exact List.mem_cons_of_mem x (ih h')

theorem labelsFrom_addSegmentLinks {P : String → Prop} {s : SankeyState}
    (h : LabelsFrom P s) (hrev : P "Total Revenue") :
    ∀ l : List Segment, (∀ sg ∈ l, ∀ nm, sg.label = some nm → P nm) →
      LabelsFrom P (addSegmentLinks l s) := by
  intro l
  induction l generalizing s with
  | nil => intro _; exact h
  | cons sg rest ih =>
    intro hseg
    unfold addSegmentLinks
    match hv : sg.value, hl : sg.label with
    | some v, some lbl =>
      refine ih (labelsFrom_addLink h ?_ hrev _ _ _ _) ?_
      · exact hseg sg (List.mem_cons_self sg rest) lbl hl
      · intro sg' hsg' nm hnm
        exact hseg sg' (List.mem_cons_of_mem sg hsg') nm hnm
    | some v, none => exact h
    | none, _ => exact h

theorem labelsFrom_processSegments {P : String → Prop} {s : SankeyState}
    (h : LabelsFrom P s) (hrev : P "Total Revenue") (segs : Option (List Segment))
    (hseg : ∀ sg ∈ segs.getD [], ∀ nm, sg.label = some nm → P nm) :
    LabelsFrom P (processSegments segs s) := by
  unfold processSegments
  cases segs with
  | none => exact h
  | some l =>
    by_cases he : l.isEmpty = true
    · simpa [he] using h
    · have : LabelsFrom P (addSegmentLinks (sortSegsDesc l) s) := by
        refine labelsFrom_addSegmentLinks h hrev _ ?_
        intro sg hsg nm hnm
        exact hseg sg (mem_sortSegsDesc hsg) nm hnm
      simpa [he] using this

theorem labelsFrom_empty (P : String → Prop) : LabelsFrom P emptySankeyState := by
  intro l hl
  simp [emptySankeyState] at hl

theorem labelsFrom_buildSankeyState (recent : List (String × PyFloat))
    (segs : Option (List Segment)) :
    LabelsFrom
      (fun lb => lb ∈ fixedSankeyNames ∨ ∃ sg ∈ segs.getD [], sg.label = some lb)
      (buildSankeyState recent segs) := by
  set P : String → Prop :=
    fun lb => lb ∈ fixedSankeyNames ∨ ∃ sg ∈ segs.getD [], sg.label = some lb with hP
  have hfix : ∀ n ∈ fixedSankeyNames, P n := fun n hn => Or.inl hn
  have hTR : P "Total Revenue" := hfix _ (by simp [fixedSankeyNames])
  have hCR : P "Cost of Revenue" := hfix _ (by simp [fixedSankeyNames])
  have hGP : P "Gross Profit" := hfix _ (by simp [fixedSankeyNames])
  have hRD : P "R&D" := hfix _ (by simp [fixedSankeyNames])
  have hSGA : P "SG&A" := hfix _ (by simp [fixedSankeyNames])
  have hOO : P "Other OpEx" := hfix _ (by simp [fixedSankeyNames])
  have hOI : P "Operating Income" := hfix _ (by simp [fixedSankeyNames])
  have hTax : P "Tax" := hfix _ (by simp [fixedSankeyNames])
  have hNI : P "Net Income" := hfix _ (by simp [fixedSankeyNames])
  have hbase : LabelsFrom P (processSegments segs emptySankeyState) :=
    labelsFrom_processSegments (labelsFrom_empty P) hTR segs
      (fun sg hsg nm hnm => Or.inr ⟨sg, hsg, hnm⟩)
  have h1 := labelsFrom_addLink hbase hTR hCR "#2E86C1" "#E74C3C"
    (pyAbs (rowGet recent "Cost Of Revenue")) (some "rgba(231, 76, 60, 0.3)")
  have h2 := labelsFrom_addLink h1 hTR hGP "#2E86C1" "#28B463"
    (pyAbs (rowGet recent "Gross Profit")) (some "rgba(40, 180, 99, 0.3)")
  have h3 := labelsFrom_ite
    (p := pyLt (.fin 0) (pyAbs (rowGet recent "Research And Development")) = true)
    (labelsFrom_addLink h2 hGP hRD "#28B463" "#F39C12"
      (pyAbs (rowGet recent "Research And Development"))
      (some "rgba(243, 156, 18, 0.3)")) h2
  have h4 := labelsFrom_ite
    (p := pyLt (.fin 0)
      (pyAbs (rowGet recent "Selling General And Administration")) = true)
    (labelsFrom_addLink h3 hGP hSGA "#28B463" "#F39C12"
      (pyAbs (rowGet recent "Selling General And Administration"))
      (some "rgba(243, 156, 18, 0.3)")) h3
  have h5 := labelsFrom_ite
    (p := pyLt (.fin 0)
      (pySub (pySub (pyAbs (rowGet recent "Operating Expense"))
          (pyAbs (rowGet recent "Research And Development")))
        (pyAbs (rowGet recent "Selling General And Administration"))) = true)
    (labelsFrom_addLink h4 hGP hOO "#28B463" "#F39C12"
      (pySub (pySub (pyAbs (rowGet recent "Operating Expense"))
          (pyAbs (rowGet recent "Research And Development")))
        (pyAbs (rowGet recent "Selling General And Administration")))
      (some "rgba(243, 156, 18, 0.3)")) h4
  have h6 := labelsFrom_addLink h5 hGP hOI "#28B463" "#28B463"
    (pyAbs (rowGet recent "Operating Income")) (some "rgba(40, 180, 99, 0.3)")
  have h7 := labelsFrom_addLink h6 hOI hTax "#28B463" "#E74C3C"
    (pyAbs (rowGet recent "Tax Provision")) (some "rgba(231, 76, 60, 0.3)")
  have h8 := labelsFrom_addLink h7 hOI hNI "#28B463" "#1E8449"
    (pyAbs (rowGet recent "Net Income")) (some "rgba(30, 132, 73, 0.5)")
  exact h8

/-! ## Lemmas on the theses manager -/

theorem dedupInsert_of_match (d : Thesis) (now newId : String) :
    ∀ ts : List Thesis, ts.any (matchesThesis d) = true →
      ∃ i, ∃ h : i < ts.length,
        matchesThesis d (ts.get ⟨i, h⟩) = true ∧
        dedupInsert d now newId ts =
          ((ts.get ⟨i, h⟩).id,
            ts.set i { d with id := (ts.get ⟨i, h⟩).id, updated_at := some now }) := by
  intro ts
  induction ts with
  | nil => intro h; simp at h
  | cons t ts ih =>
    intro h
    by_cases hm : matchesThesis d t = true
    · refine ⟨0, Nat.succ_pos _, ?_, ?_⟩
      · simpa using hm
      · simp [dedupInsert, hm]
    · have h' : ts.any (matchesThesis d) = true := by
        simpa [List.any_cons, hm] using h
      obtain ⟨i, hi, hmi, heq⟩ := ih h'
      refine ⟨i + 1, Nat.succ_lt_succ hi, ?_, ?_⟩
      · simpa using hmi
      · simp [dedupInsert, hm, heq]

theorem countP_set_same (p : Thesis → Bool) (l : List Thesis) (i : ℕ) (a : Thesis)
    (h : i < l.length) (h1 : p (l.get ⟨i, h⟩) = true) (h2 : p a = true) :
    (l.set i a).countP p = l.countP p := by
  have hmem : l.get ⟨i, h⟩ ∈ l := List.get_mem l i h
  have hpos : 0 < l.countP p := List.countP_pos_iff.mpr ⟨_, hmem, h1⟩
  have hset := List.countP_set p l i a h
  have hgi : p l[i] = true := h1
  rw [hset, hgi, h2]
  simp
  omega

/-- The replacement record written by content de-duplication still matches
the incoming record (same ticker, same statement). -/
theorem matchesThesis_replacement (d : Thesis) (newId : String) (now : String) :
    matchesThesis d { d with id := newId, updated_at := some now } = true := by
  simp [matchesThesis]

/-! ## Claims about the theses manager -/

/-- C2 (counterexample): the claim asserts that after a no-id save that
hits a content duplicate, no second record with the same
(ticker, stripped statement) pair exists.  When the stored list already
holds two records with that pair, only the first is replaced: the saved
file still contains two records with the pair. -/
theorem claim_C2_counterexample :
    thesisDraft.id = "" ∧
    matchesThesis thesisDraft thesisA = true ∧
    matchesThesis thesisDraft thesisB = true ∧
    ((saveThesis "2026-02-03 10:00:00" "uuid-new" thesisDraft
        (some [thesisA, thesisB])).2.getD []).countP (matchesThesis thesisDraft) = 2 := by
  refine ⟨rfl, ?_, ?_, ?_⟩ <;> decide

/-- C2 (amended): for a thesis without id whose (ticker, stripped
statement) pair already occurs in the stored list, `save_thesis` replaces
the first matching record in place, keeps its id, stamps `updated_at`,
reports success with that id, and does not change the number of stored
records; when the matching record was unique, exactly one record with the
pair exists afterwards. -/
theorem claim_C2_amended (ts : List Thesis) (d : Thesis) (now newId : String)
    (hid : d.id = "") (hdup : ts.any (matchesThesis d) = true) :
    ∃ i, ∃ h : i < ts.length,
      matchesThesis d (ts.get ⟨i, h⟩) = true ∧
      saveThesis now newId d (some ts) =
        ((true, (ts.get ⟨i, h⟩).id),
          some (ts.set i
            { d with id := (ts.get ⟨i, h⟩).id, updated_at := some now })) ∧
      (ts.set i { d with id := (ts.get ⟨i, h⟩).id, updated_at := some now }).length
        = ts.length ∧
      (ts.countP (matchesThesis d) = 1 →
        (ts.set i { d with id := (ts.get ⟨i, h⟩).id, updated_at := some now
          }).countP (matchesThesis d) = 1) := by
  obtain ⟨i, h, hm, heq⟩ := dedupInsert_of_match d now newId ts hdup
  refine ⟨i, h, hm, ?_, by simp, ?_⟩
  · unfold saveThesis
    rw [if_pos (by simp [hid])]
    rw [heq]
  · intro hcount
    rw [countP_set_same (matchesThesis d) ts i _ h hm
      (matchesThesis_replacement d _ now), hcount]

/-- C2 (witness): a concrete single-record store on which the amended
statement instantiates: the draft replaces the stored record in place,
keeping id `id-a`. -/
theorem claim_C2_amended_witness :
    saveThesis "2026-02-03 10:00:00" "uuid-new" thesisDraft (some [thesisA]) =
      ((true, "id-a"),
        some [{ thesisDraft with id := "id-a", updated_at := some "2026-02-03 10:00:00" }]) := by
  obtain ⟨i, h, hm, heq, hlen, hcnt⟩ :=
    claim_C2_amended [thesisA] thesisDraft "2026-02-03 10:00:00" "uuid-new"
      rfl (by decide)
  have hi : i = 0 := Nat.lt_one_iff.mp h
  subst hi
  simpa using heq

/-- C6 (counterexample): the theses file is not an append-only journal: a
store holding exactly the record `thesisA` is rewritten as the empty list
by `delete_thesis`, removing a previously written record. -/
theorem claim_C6_counterexample :
    deleteThesis "id-a" (some [thesisA]) = (true, some []) := by decide

/-- C6 (amended): the theses file is a mutable flat list rewritten
wholesale: deleting the id of a stored record succeeds and writes a list
that no longer contains any record with that id, while keeping every
record with a different id. -/
theorem claim_C6_amended (ts : List Thesis) (t : Thesis) (ht : t ∈ ts) :
    (deleteThesis t.id (some ts)).1 = true ∧
    ∃ l, (deleteThesis t.id (some ts)).2 = some l ∧
      (∀ u ∈ l, u.id ≠ t.id) ∧
      (∀ u ∈ ts, u.id ≠ t.id → u ∈ l) := by
  have hlen : (ts.filter (fun u => u.id ≠ t.id)).length ≠ ts.length := by
    intro hEq
    have hall := List.filter_length_eq_length.mp hEq t ht
    simp at hall
  have hdel : deleteThesis t.id (some ts)
      = (true, some (ts.filter (fun u => u.id ≠ t.id))) := by
    have h0 : deleteThesis t.id (some ts)
        = if (ts.filter (fun u => u.id ≠ t.id)).length = ts.length
          then (false, none)
          else (true, some (ts.filter (fun u => u.id ≠ t.id))) := rfl
    rw [h0, if_neg hlen]
  constructor
  · rw [hdel]
  · refine ⟨ts.filter (fun u => u.id ≠ t.id), ?_, ?_, ?_⟩
    · rw [hdel]
    · intro u hu
      have := (List.mem_filter.mp hu).2
      simpa using this
    · intro u hu hne
      exact List.mem_filter.mpr ⟨hu, by simpa using hne⟩

/-- C6 (witness): the amended statement at a concrete two-record store. -/
theorem claim_C6_amended_witness :
    (deleteThesis thesisA.id (some [thesisA, thesisB])).1 = true ∧
    ∃ l, (deleteThesis thesisA.id (some [thesisA, thesisB])).2 = some l ∧
      (∀ u ∈ l, u.id ≠ thesisA.id) ∧
      (∀ u ∈ [thesisA, thesisB], u.id ≠ thesisA.id → u ∈ l) :=
  claim_C6_amended [thesisA, thesisB] thesisA (by decide)

/-- C9: on a load failure (`load_theses()` returned `None` after a
non-JSON-decode error), `delete_thesis` refuses to write, as the claim
says; but `save_thesis` falls back to an empty list, reports success and
rewrites the file so that it contains only the new record — the guard that
should have returned `(False, "Failed to load existing theses (File Access
Error).")` is unreachable. -/
theorem claim_C9_code_behaviour :
    saveThesis "2026-02-03 10:00:00" "uuid-1" thesisDraft none =
      ((true, "uuid-1"),
        some [{ thesisDraft with id := "uuid-1", created_at := some "2026-02-03 10:00:00" }]) ∧
    deleteThesis "id-a" none = (false, none) := by
  constructor <;> rfl

/-! ## Lemmas on the cache managers -/

theorem getCachedStructure_eq_none_iff (c : SankeyCache) (t : String) :
    getCachedStructure c t = none ↔ dictGet c (pyUpper t) = none := by
  unfold getCachedStructure
  cases dictGet c (pyUpper t) <;> simp

theorem applySankeyOps_untouched (K : String) :
    ∀ (ops : List SankeyOp) (c : SankeyCache),
      (∀ op ∈ ops, opTouches K op = false) →
      dictGet (applySankeyOps c ops) K = dictGet c K := by
  intro ops
  induction ops with
  | nil => intro c _; rfl
  | cons op rest ih =>
    intro c hops
    have hop : opTouches K op = false := hops op (List.mem_cons_self _ _)
    have hrest : ∀ o ∈ rest, opTouches K o = false :=
      fun o ho => hops o (List.mem_cons_of_mem _ ho)
    have h1 : dictGet (applySankeyOp c op) K = dictGet c K := by
      cases op with
      | save t' d' now' =>
        have hne : (pyUpper t') ≠ K := by simpa [opTouches] using hop
        simpa [applySankeyOp, saveStructure] using dictGet_dictSet_ne c _ hne
      | inval t' =>
        have hne : (pyUpper t') ≠ K := by simpa [opTouches] using hop
        show dictGet (invalidateStructure t' c) K = dictGet c K
        unfold invalidateStructure
        split
        · exact dictGet_dictDel_ne c hne
        · rfl
    have h2 : applySankeyOps c (op :: rest)
        = applySankeyOps (applySankeyOp c op) rest := rfl
    rw [h2, ih _ hrest, h1]

theorem applySankeyOps_isSome (K : String) :
    ∀ (ops : List SankeyOp) (c : SankeyCache), (dictGet c K).isSome →
      (∀ u, SankeyOp.inval u ∈ ops → (pyUpper u) ≠ K) →
      (dictGet (applySankeyOps c ops) K).isSome := by
  intro ops
  induction ops with
  | nil => intro c h _; exact h
  | cons op rest ih =>
    intro c hsome hinval
    have h2 : applySankeyOps c (op :: rest)
        = applySankeyOps (applySankeyOp c op) rest := rfl
    rw [h2]
    refine ih _ ?_ (fun u hu => hinval u (List.mem_cons_of_mem _ hu))
    cases op with
    | save t' d' now' =>
      by_cases ht : (pyUpper t') = K
      · have : dictGet (applySankeyOp c (SankeyOp.save t' d' now')) K
            = some { structure' := d', cached_at := now' } := by
          simpa [applySankeyOp, saveStructure, ht] using
            dictGet_dictSet_self c K { structure' := d', cached_at := now' }
        rw [this]
        rfl
      · have : dictGet (applySankeyOp c (SankeyOp.save t' d' now')) K
            = dictGet c K := by
          simpa [applySankeyOp, saveStructure] using dictGet_dictSet_ne c _ ht
        rw [this]
        exact hsome
    | inval u =>
      have hu : (pyUpper u) ≠ K :=
        hinval u (List.mem_cons_self _ _)
      have hied : dictGet (applySankeyOp c (SankeyOp.inval u)) K = dictGet c K := by
        show dictGet (invalidateStructure u c) K = dictGet c K
        unfold invalidateStructure
        split
        · exact dictGet_dictDel_ne c hu
        · rfl
      rw [hied]
      exact hsome

/-! ## Claims about the cache managers -/

/-- C3: `get_cached_earnings` returns the stored data payload exactly when
an entry exists under the uppercased ticker and its cache date is today;
an absent entry, and an entry cached on any other day, both yield `None`. -/
theorem claim_C3_day_rollover (c : EarningsCache) (ticker today : String) :
    (∀ d, getCachedEarnings c ticker today = some d ↔
        ∃ e, dictGet c (pyUpper ticker) = some e ∧
          e.cached_date = today ∧ e.data = d) ∧
    (getCachedEarnings c ticker today = none ↔
        ∀ e, dictGet c (pyUpper ticker) = some e → e.cached_date ≠ today) := by
  have hval : ∀ e, dictGet c (pyUpper ticker) = some e →
      getCachedEarnings c ticker today
        = (if e.cached_date = today then some e.data else none) := by
    intro e hg
    unfold getCachedEarnings
    rw [hg]
  have hmiss : dictGet c (pyUpper ticker) = none →
      getCachedEarnings c ticker today = none := by
    intro hg
    unfold getCachedEarnings
    rw [hg]
  cases hg : dictGet c (pyUpper ticker) with
  | none =>
    constructor
    · intro d
      rw [hmiss hg]
      simp [hg]
    · rw [hmiss hg]
      simp [hg]
  | some e =>
    have h0 := hval e hg
    by_cases hd : e.cached_date = today
    · constructor
      · intro d
        rw [h0, if_pos hd]
        constructor
        · intro h
          exact ⟨e, rfl, hd, Option.some.inj h⟩
        · rintro ⟨e', he', hd', hdata⟩
          have he2 : e = e' := Option.some.inj he'
          rw [← he2] at hdata
          rw [hdata]
      · rw [h0, if_pos hd]
        constructor
        · intro h
          simp at h
        · intro hall
          exact absurd hd (hall e rfl)
    · constructor
      · intro d
        rw [h0, if_neg hd]
        constructor
        · intro h
          simp at h
        · rintro ⟨e', he', hd', hdata⟩
          have he2 : e = e' := Option.some.inj he'
          rw [← he2] at hd'
          exact absurd hd' hd
      · rw [h0, if_neg hd]
        constructor
        · intro _ e' he'
          have he2 : e = e' := Option.some.inj he'
          rw [← he2]
          exact hd
        · intro _
          rfl

/-- C5: a Sankey structure saved for a ticker is still returned unchanged
after any further sequence of cache operations that does not address the
same uppercased ticker (there is no time-based expiry: the saved `now`
stamps and those of later operations are arbitrary), and if the entry has
disappeared then the sequence contained an `invalidate_cache` for a ticker
with the same uppercase. -/
theorem claim_C5_no_expiry (t : String) (d : Json) (now : String)
    (c : SankeyCache) (ops : List SankeyOp) :
    ((∀ op ∈ ops, opTouches (pyUpper t) op = false) →
      getCachedStructure (applySankeyOps (saveStructure t d now c) ops) t
        = some d) ∧
    (getCachedStructure (applySankeyOps (saveStructure t d now c) ops) t = none →
      ∃ u, SankeyOp.inval u ∈ ops ∧ (pyUpper u) = (pyUpper t)) := by
  constructor
  · intro hops
    have h1 : dictGet (applySankeyOps (saveStructure t d now c) ops) (pyUpper t)
        = dictGet (saveStructure t d now c) (pyUpper t) :=
      applySankeyOps_untouched (pyUpper t) ops _ hops
    have h2 : dictGet (saveStructure t d now c) (pyUpper t)
        = some { structure' := d, cached_at := now } := by
      simpa [saveStructure] using
        dictGet_dictSet_self c (pyUpper t) { structure' := d, cached_at := now }
    unfold getCachedStructure
    rw [h1, h2]
  · intro hnone
    by_contra hno
    push_neg at hno
    have hsome0 : (dictGet (saveStructure t d now c) (pyUpper t)).isSome := by
      have := dictGet_dictSet_self c (pyUpper t)
        { structure' := d, cached_at := now }
      simp [saveStructure, this]
    have hsome :
        (dictGet (applySankeyOps (saveStructure t d now c) ops) (pyUpper t)).isSome :=
      applySankeyOps_isSome (pyUpper t) ops _ hsome0 hno
    rw [getCachedStructure_eq_none_iff] at hnone
    rw [hnone] at hsome
    simp at hsome

/-- C5 (witness): a lowercase save survives an unrelated save and an
unrelated invalidation; the uppercase entry disappears only through an
invalidation of the same ticker, as the second conjunct instantiates. -/
theorem claim_C5_witness :
    getCachedStructure
      (applySankeyOps
        (saveStructure "aapl" demoCachedStructure "2026-01-01 00:00:00" [])
        [SankeyOp.save "MSFT" Json.null "2027-06-01 00:00:00",
         SankeyOp.inval "tsla"]) "aapl" = some demoCachedStructure :=
  (claim_C5_no_expiry "aapl" demoCachedStructure "2026-01-01 00:00:00" []
    [SankeyOp.save "MSFT" Json.null "2027-06-01 00:00:00",
     SankeyOp.inval "tsla"]).1 (by decide)

/-- C7: both caches key by the uppercased ticker, so a save under one
spelling is found under any spelling with the same uppercasing: the Sankey
round-trip holds unconditionally and the earnings round-trip holds for a
same-day read. -/
theorem claim_C7_case_insensitive (t s : String) (h : (pyUpper s) = (pyUpper t))
    (dS dE : Json) (nowS today nowE : String)
    (cS : SankeyCache) (cE : EarningsCache) :
    getCachedStructure (saveStructure t dS nowS cS) s = some dS ∧
    getCachedEarnings (saveEarnings t dE today nowE cE) s today = some dE := by
  constructor
  · unfold getCachedStructure saveStructure
    rw [h, dictGet_dictSet_self]
  · unfold getCachedEarnings saveEarnings
    rw [h, dictGet_dictSet_self]
    simp

/-- C7 (witness): the round-trips at the concrete spellings `aapl`
and `AaPl`. -/
theorem claim_C7_witness :
    getCachedStructure
      (saveStructure "aapl" demoCachedStructure "2026-01-01 00:00:00" []) "AaPl"
      = some demoCachedStructure ∧
    getCachedEarnings
      (saveEarnings "aapl" Json.null "2026-01-02" "2026-01-02 08:00:00" [])
      "AaPl" "2026-01-02" = some Json.null :=
  claim_C7_case_insensitive "aapl" "AaPl" (by decide) demoCachedStructure
    Json.null "2026-01-01 00:00:00" "2026-01-02" "2026-01-02 08:00:00" [] []

/-! ## Claims about the LLM structure inference -/

/-- C8 (counterexample): the claim asserts that every structure returned
by `infer_sankey_structure` conforms to the data model (named nodes with
layer indices, links with source/target/field, a field mapping) and that
any non-conforming response yields `None`.  A response whose `nodes` and
`links` entries are plain numbers conforms to nothing, yet is returned
unchanged: the validation only tests for the presence of the two keys. -/
theorem claim_C8_counterexample :
    inferSankeyStructure true (some malformedStructure)
      = Except.ok (some malformedStructure) ∧
    specConformantStructure malformedStructure = false := by
  constructor <;> rfl

/-- C8 (amended): with the API key available, `infer_sankey_structure`
returns a parsed response unchanged exactly when Python membership finds
both a `nodes` and a `links` entry in it; it checks nothing else, so
responses without `field_mapping`, layer indices or link fields pass, and
parse failures or responses lacking either key give `None`. -/
theorem claim_C8_amended (resp : Option Json) (j : Json) :
    inferSankeyStructure true resp = Except.ok (some j) ↔
      resp = some j ∧ pyIn "nodes" j = Except.ok true ∧
        pyIn "links" j = Except.ok true := by
  cases resp with
  | none => simp [inferSankeyStructure]
  | some s =>
    constructor
    · intro h
      cases hn : pyIn "nodes" s with
      | error e => simp [inferSankeyStructure, hn] at h
      | ok b =>
        cases b with
        | false => simp [inferSankeyStructure, hn] at h
        | true =>
          cases hl : pyIn "links" s with
          | error e => simp [inferSankeyStructure, hn, hl] at h
          | ok b2 =>
            cases b2 with
            | false => simp [inferSankeyStructure, hn, hl] at h
            | true =>
              have hj : s = j := by
                simpa [inferSankeyStructure, hn, hl] using h
              subst hj
              exact ⟨rfl, hn, hl⟩
    · rintro ⟨hsj, hn, hl⟩
      cases hsj
      simp [inferSankeyStructure, hn, hl]

/-- C8 (witness): a fully conformant structure also passes the key test
and is returned unchanged. -/
theorem claim_C8_witness :
    inferSankeyStructure true (some demoCachedStructure)
      = Except.ok (some demoCachedStructure) :=
  (claim_C8_amended (some demoCachedStructure) demoCachedStructure).mpr
    ⟨rfl, rfl, rfl⟩

/-- C3 (witness): a same-day entry is served back. -/
theorem claim_C3_witness :
    getCachedEarnings
      [("AAPL", { data := Json.null, cached_date := "2026-02-03",
                  cached_at := "2026-02-03 08:00:00" })]
      "aapl" "2026-02-03" = some Json.null :=
  ((claim_C3_day_rollover
      [("AAPL", { data := Json.null, cached_date := "2026-02-03",
                  cached_at := "2026-02-03 08:00:00" })]
      "aapl" "2026-02-03").1 Json.null).mpr ⟨_, rfl, rfl, rfl⟩

/-! ## The reduced form of the Sankey builder and claims about it -/

theorem getSankeyData_eq_some (fin : Financials) (segs : Option (List Segment))
    (inc : IncomeStmt) (hfin : fin.income_stmt = some inc) :
    getSankeyData fin segs =
      some { period := periodLabel inc,
             label := (buildSankeyState inc.recent segs).labels,
             color := (buildSankeyState inc.recent segs).nodeColors,
             source := (buildSankeyState inc.recent segs).source,
             target := (buildSankeyState inc.recent segs).target,
             value := (buildSankeyState inc.recent segs).value,
             link_color := (buildSankeyState inc.recent segs).linkColors,
             custom_data := (buildSankeyState inc.recent segs).customData } := by
  unfold getSankeyData
  rw [hfin]

theorem getSankeyData_eq_none (fin : Financials) (segs : Option (List Segment))
    (hfin : fin.income_stmt = none) : getSankeyData fin segs = none := by
  unfold getSankeyData
  rw [hfin]

/-- `get_sankey_data` evaluated on the concrete demo quarter. -/
theorem demo_getSankeyData :
    getSankeyData demoFinancials (some []) = some demoSankeyResult := by decide

/-- C1 (counterexample): on a concrete call whose ticker holds a cached
Sankey structure with nodes `Alpha` and `Beta`, `get_sankey_data` emits the
hard-coded income-statement node labels: the returned node/link data is not
derived from the per-ticker structure cache (nor repaired from it), as a
cache-first strategy would require. -/
theorem claim_C1_counterexample :
    (getSankeyData demoFinancials (some [])).map SankeyResult.label
      = some fixedSankeyNames ∧
    specClaimedSankeyLabels demoSankeyCache "AAPL" = some ["Alpha", "Beta"] ∧
    (getSankeyData demoFinancials (some [])).map SankeyResult.label
      ≠ specClaimedSankeyLabels demoSankeyCache "AAPL" := by
  refine ⟨?_, ?_, ?_⟩ <;> decide

/-- C1 (amended): `get_sankey_data` consults neither the Sankey structure
cache nor the LLM inference: every call derives the flow graph from a
fixed hard-coded income-statement topology (taking absolute values of the
line items, the only sign handling), so every node label it returns is one
of the nine hard-coded names or the label of a revenue segment of its
input. -/
theorem claim_C1_amended (fin : Financials) (segs : Option (List Segment))
    (r : SankeyResult) (h : getSankeyData fin segs = some r) :
    ∀ l ∈ r.label,
      l ∈ fixedSankeyNames ∨ ∃ sg ∈ segs.getD [], sg.label = some l := by
  cases hfin : fin.income_stmt with
  | none =>
    rw [getSankeyData_eq_none fin segs hfin] at h
    simp at h
  | some inc =>
    rw [getSankeyData_eq_some fin segs inc hfin] at h
    have hr := Option.some.inj h
    subst hr
    intro l hl
    exact labelsFrom_buildSankeyState inc.recent segs l hl

/-- C1 (witness): the amended statement at the demo quarter. -/
theorem claim_C1_amended_witness :
    getSankeyData demoFinancials (some []) = some demoSankeyResult ∧
    ∀ l ∈ demoSankeyResult.label,
      l ∈ fixedSankeyNames ∨
        ∃ sg ∈ (some ([] : List Segment)).getD [], sg.label = some l :=
  ⟨demo_getSankeyData,
   claim_C1_amended demoFinancials (some []) demoSankeyResult demo_getSankeyData⟩

/-- C4 (counterexample): the claim asserts every entry of the returned
`value` list is strictly positive.  With a NaN `Cost Of Revenue` cell —
an ordinary yfinance statement value — `abs(nan)` is NaN, `nan <= 0` is
`False` so the `add_link` guard does not fire, and the returned `value`
list carries a NaN entry, which is not strictly positive. -/
theorem claim_C4_counterexample :
    getSankeyData nanFinancials (some []) = some nanSankeyResult ∧
    PyFloat.nan ∈ nanSankeyResult.value ∧
    nanSankeyResult.value.all strictlyPos = false := by
  refine ⟨?_, ?_, ?_⟩ <;> decide

/-- C4 (amended): whenever `get_sankey_data` returns a result, every entry
of its `value` list is strictly positive or NaN: `add_link` drops any
finite `val <= 0` and the line items enter as absolute values, but a NaN
line item passes the guard (`nan <= 0` is `False`) and is emitted. -/
theorem claim_C4_positive_or_nan (fin : Financials) (segs : Option (List Segment))
    (r : SankeyResult) (h : getSankeyData fin segs = some r) :
    ∀ v ∈ r.value, v = PyFloat.nan ∨ strictlyPos v = true := by
  cases hfin : fin.income_stmt with
  | none =>
    rw [getSankeyData_eq_none fin segs hfin] at h
    simp at h
  | some inc =>
    rw [getSankeyData_eq_some fin segs inc hfin] at h
    have hr := Option.some.inj h
    subst hr
    intro v hv
    exact valuePos_buildSankeyState inc.recent segs v hv

/-- C4 (witness): the NaN quarter returns eight flows, each positive or
NaN (one of each kind is present). -/
theorem claim_C4_witness :
    getSankeyData nanFinancials (some []) = some nanSankeyResult ∧
    ∀ v ∈ nanSankeyResult.value, v = PyFloat.nan ∨ strictlyPos v = true :=
  ⟨by decide,
   claim_C4_positive_or_nan nanFinancials (some []) nanSankeyResult (by decide)⟩

/-- C10: whenever `get_sankey_data` returns a result, the five link lists
have equal length and every index of `source` and `target` is a valid
position of the `label` list (each was produced by `get_idx`, which appends
the name before returning its position). -/
theorem claim_C10_well_formed (fin : Financials) (segs : Option (List Segment))
    (r : SankeyResult) (h : getSankeyData fin segs = some r) :
    r.source.length = r.value.length ∧
    r.target.length = r.value.length ∧
    r.link_color.length = r.value.length ∧
    r.custom_data.length = r.value.length ∧
    (∀ i ∈ r.source, i < r.label.length) ∧
    (∀ i ∈ r.target, i < r.label.length) := by
  cases hfin : fin.income_stmt with
  | none =>
    rw [getSankeyData_eq_none fin segs hfin] at h
    simp at h
  | some inc =>
    rw [getSankeyData_eq_some fin segs inc hfin] at h
    have hr := Option.some.inj h
    subst hr
    exact wf_buildSankeyState inc.recent segs

/-- C10 (witness): the demo quarter instantiates the shape invariants. -/
theorem claim_C10_witness :
    getSankeyData demoFinancials (some []) = some demoSankeyResult ∧
    (demoSankeyResult.source.length = demoSankeyResult.value.length ∧
     demoSankeyResult.target.length = demoSankeyResult.value.length ∧
     demoSankeyResult.link_color.length = demoSankeyResult.value.length ∧
     demoSankeyResult.custom_data.length = demoSankeyResult.value.length ∧
     (∀ i ∈ demoSankeyResult.source, i < demoSankeyResult.label.length) ∧
     (∀ i ∈ demoSankeyResult.target, i < demoSankeyResult.label.length)) :=
  ⟨demo_getSankeyData,
   claim_C10_well_formed demoFinancials (some []) demoSankeyResult
     demo_getSankeyData⟩

end StockDash
